import Mathlib

/-
Verification of the GitLab time-tracking tree model and its statistics
passes: the Workitem/Issue/Epic hierarchy (Workitem.py, Issue.py, Epic via
its spec since the class body is not in the sources), the per-user time
attribution of Issue, and the date-windowed aggregation passes of app.py
(build_rows, filter_data_by_date, filter_data_by_date_range,
calculate_cfd_stats, calculate_cfd_stats_date_range).

Modelling conventions: Python floats are embedded as rationals; ISO-8601
date strings are embedded by their parse result, an abstract integer
timestamp (none models a missing or malformed string, whose parse raises);
Python dicts that are only read through key lookup are association lists in
insertion order, matching dict iteration order.
-/

/-- Association-list lookup: models Python dict membership and indexing
(first matching key wins; a Python dict cannot hold duplicate keys). -/
def lookupA {α : Type} (k : String) : List (String × α) → Option α
  | [] => none
  | p :: ps => if p.1 = k then some p.2 else lookupA k ps

/-- Association-list update: models Python dict assignment d[k] = v
(overwrite the existing entry, or append a new one). -/
def setA {α : Type} (k : String) (v : α) : List (String × α) → List (String × α)
  | [] => [(k, v)]
  | p :: ps => if p.1 = k then (k, v) :: ps else p :: setA k v ps

/-- Round a rational to the nearest integer with ties to even, modelling
the tie behaviour of the Python builtin round. -/
def roundHalfEven (x : ℚ) : ℤ :=
  let f := ⌊x⌋
  let r := x - f
  if r < 1 / 2 then f
  else if 1 / 2 < r then f + 1
  else if f % 2 = 0 then f else f + 1

/-- Models round(x, 2) from app.py on the rational embedding of floats. -/
def round2 (x : ℚ) : ℚ := (roundHalfEven (100 * x) : ℚ) / 100

/-- Models round(x, 4) from app.py on the rational embedding of floats. -/
def round4 (x : ℚ) : ℚ := (roundHalfEven (10000 * x) : ℚ) / 10000

/-- One timelog record appended by Issue.addTimeSpentByUser: zeit is the
field Zeit(Std), datum embeds the field Datum (a spentAt ISO string) by its
parse result: some t when datetime.fromisoformat yields timestamp t, none
when the string is missing or malformed so that parsing raises. -/
structure TimeEntry where
  zeit : ℚ
  datum : Option ℤ
  deriving DecidableEq, Repr

/-- The per-object fields of Workitem and of its subclass Issue
(Workitem.__init__ and Issue.__init__), plus createdAt which
timetracker.accumulateEpicTree sets on issues. tag embeds the class
attribute type: none on the Workitem base class, some "issue" on Issue,
and some "epic" on Epic, the latter modelled from the spec because Epic.py
is not among the sources (the spec gives Epic no extra fields). parent
holds the id of the parent object; Python stores an object reference, which
a tree value cannot represent, and every reader of parent only uses its id.
Fields that only Issue uses (userTimeMap, labels, createdAt) are empty or
none on epic nodes. createdAt embeds the ISO string like TimeEntry.datum,
with the outer none for an absent or null attribute. -/
structure WData where
  tag : Option String
  id : Option Int
  title : String
  parent : Option (Option Int)
  hoursEstimate : ℚ
  hoursSpent : ℚ
  userTimeMap : List (String × List TimeEntry)
  labels : List String
  createdAt : Option (Option ℤ)
  deriving DecidableEq, Repr

/-- A Workitem object together with the objects owned through its children
list. -/
inductive Workitem where
  | mk (data : WData) (children : List Workitem)

/-- Field access for the node data of a Workitem. -/
def Workitem.data : Workitem → WData
  | .mk d _ => d

/-- Field access for the children list of a Workitem. -/
def Workitem.children : Workitem → List Workitem
  | .mk _ cs => cs

/-- Current hoursEstimate at the root of a tree. -/
def rootEst (t : Workitem) : ℚ := t.data.hoursEstimate

/-- Current hoursSpent at the root of a tree. -/
def rootSpent (t : Workitem) : ℚ := t.data.hoursSpent

/-- Workitem.__eq__: comparison with None returns False (the guard
other==None evaluates to True exactly when other is None, because comparing
a Workitem with None recurses once and returns False); otherwise the ids
are compared with Python ==, under which None == None holds. -/
def wiEq (self : Workitem) (other : Option Workitem) : Bool :=
  match other with
  | none => false
  | some o => self.data.id == o.data.id

/-- Workitem.addChild: the membership test item in self.children uses
Workitem.__eq__, hence id equality; when the item is new its parent is set
to the receiver and it is appended. Returns the updated receiver, the
possibly updated item (Python mutates both objects in place), and the
boolean result. -/
def addChild (self item : Workitem) : Workitem × Workitem × Bool :=
  if self.children.any (fun c => item.data.id == c.data.id) then
    (self, item, false)
  else
    let item2 := Workitem.mk { item.data with parent := some self.data.id } item.children
    (Workitem.mk self.data (self.children ++ [item2]), item2, true)

mutual
/-- Workitem.accumulateTimes: an issue returns its own pair unchanged; an
epic accumulates each child in order and adds each returned pair onto its
own running totals (the += in the loop); any other tag falls through to the
final return of the current pair. Returns the updated tree and the returned
pair. -/
def accumulateTimes : Workitem → Workitem × ℚ × ℚ
  | .mk d cs =>
    if d.tag = some "issue" then (.mk d cs, d.hoursEstimate, d.hoursSpent)
    else if d.tag = some "epic" then
      let rs := accChildren cs
      let e := d.hoursEstimate + (rs.map (fun r => r.2.1)).sum
      let s := d.hoursSpent + (rs.map (fun r => r.2.2)).sum
      (.mk { d with hoursEstimate := e, hoursSpent := s } (rs.map (fun r => r.1)), e, s)
    else (.mk d cs, d.hoursEstimate, d.hoursSpent)
termination_by structural t => t

/-- The for loop over self.children inside accumulateTimes, child by child
in list order. -/
def accChildren : List Workitem → List (Workitem × ℚ × ℚ)
  | [] => []
  | c :: cs => accumulateTimes c :: accChildren cs
termination_by structural l => l
end

/-- Issue.getUserTotalTime: total of the Zeit(Std) figures of one user, 0
when the user is absent (the KeyError branch). -/
def getUserTotalTime (i : WData) (user : String) : ℚ :=
  match lookupA user i.userTimeMap with
  | some es => (es.map TimeEntry.zeit).sum
  | none => 0

/-- The denominator that Issue.getUserPercentagesByTime recomputes: the sum
over the users of the map of their per-user totals. -/
def sumUserTotals (i : WData) : ℚ :=
  (i.userTimeMap.map (fun p => getUserTotalTime i p.1)).sum

/-- Issue.getUserPercentagesByTime: returns the mapping user to share and
the updated object, because the method assigns self.hoursSpent = sum of the
per-user totals before dividing. A zero total with a nonempty map raises
ZeroDivisionError on the first division, which the bare except turns into
an empty result; the hoursSpent assignment has already happened at that
point. The opening guard compares with the float literal 0.001, embedded
as 1 / 1000. -/
def getUserPercentagesByTime (i : WData) : List (String × ℚ) × WData :=
  if i.hoursSpent < 1 / 1000 ∧ i.userTimeMap = [] then ([], i)
  else
    let userTimes := i.userTimeMap.map (fun p => (p.1, getUserTotalTime i p.1))
    let total := (userTimes.map Prod.snd).sum
    let i2 := { i with hoursSpent := total }
    if total = 0 ∧ i.userTimeMap ≠ [] then ([], i2)
    else (userTimes.map (fun p => (p.1, p.2 / total)), i2)

/-- The date window of the two filtering passes of app.py:
filter_data_by_date uses an optional cutoff (days = None gives no cutoff)
and keeps entries with entry_date >= cutoff_date; filter_data_by_date_range
keeps entries with start_date <= entry_date <= end_date. -/
inductive Win where
  | lookback (cutoff : Option ℤ)
  | range (a b : ℤ)
  deriving DecidableEq, Repr

/-- Date test applied to a successfully parsed entry date. -/
def inWin : Win → ℤ → Bool
  | .lookback none, _ => true
  | .lookback (some c), d => c ≤ d
  | .range a b, d => decide (a ≤ d) && decide (d ≤ b)

/-- The inner entry loop of build_filtered_rows in both filtering passes:
each entry date is parsed before the window test, so a missing or malformed
Datum raises and the local user_total of the current user is discarded
(it is only committed after the whole loop). -/
def userWindowTotal (w : Win) : List TimeEntry → Except Unit ℚ
  | [] => .ok 0
  | e :: es =>
    match e.datum with
    | none => .error ()
    | some d =>
      match userWindowTotal w es with
      | .error u => .error u
      | .ok t => .ok ((if inWin w d then e.zeit else 0) + t)

/-- The try body of build_filtered_rows: walk the users of userTimeMap in
order, committing each fully processed user with positive windowed total
into filtered_user_times and filtered_hours_spent; the first malformed
entry aborts the walk, keeping the totals committed so far (third component
true marks that the exception fired). -/
def tryPhase (w : Win) :
    List (String × List TimeEntry) → ℚ → List (String × ℚ) →
    ℚ × List (String × ℚ) × Bool
  | [], h, fm => (h, fm, false)
  | (u, es) :: rest, h, fm =>
    match userWindowTotal w es with
    | .error _ => (h, fm, true)
    | .ok t => if 0 < t then tryPhase w rest (h + t) (fm ++ [(u, t)]) else tryPhase w rest h fm

/-- The except handler of build_filtered_rows: on any filtering failure it
walks userTimeMap again, overwrites each per-user slot with the full
unwindowed total, and adds every full total onto the already accumulated
filtered_hours_spent (the running sum is not reset). -/
def exceptPhase : List (String × List TimeEntry) → ℚ → List (String × ℚ) →
    ℚ × List (String × ℚ)
  | [], h, fm => (h, fm)
  | (u, es) :: rest, h, fm =>
    let full := (es.map TimeEntry.zeit).sum
    exceptPhase rest (h + full) (setA u full fm)

/-- Windowed per-issue attribution of build_filtered_rows (shared by
filter_data_by_date and filter_data_by_date_range): the try body, with the
except handler taking over when an entry date fails to parse. Returns
filtered_hours_spent and filtered_user_times. -/
def filterIssueHours (w : Win) (m : List (String × List TimeEntry)) :
    ℚ × List (String × ℚ) :=
  match tryPhase w m 0 [] with
  | (h, fm, false) => (h, fm)
  | (h, fm, true) => exceptPhase m h fm

/-- Sum of all Zeit(Std) figures of an issue over every user and entry:
the value the except handler of build_filtered_rows accumulates. -/
def fullSum (m : List (String × List TimeEntry)) : ℚ :=
  (m.map (fun p => (p.2.map TimeEntry.zeit).sum)).sum

/-- One flattened output row (a dict in app.py): the fixed columns Typ,
Titel, IID, Parent IID, Zeitaufwand (h), gesch. Zeitaufwand (h), createdAt
and state, plus one share column per known user. The per-label boolean
columns are not modelled; no claim mentions them. -/
structure Row where
  typ : Option String
  titel : String
  iid : Option Int
  parentIID : Option Int
  hours : ℚ
  estimate : ℚ
  createdAt : Option (Option ℤ)
  state : Option String
  shares : List (String × ℚ)
  deriving DecidableEq, Repr

/-- Python parentId = None if e.parent == None else e.parent.id collapses
the two None sources (no parent object, or a parent whose id is None) into
one None column value. -/
def flatParent : Option (Option Int) → Option Int
  | none => none
  | some p => p

mutual
/-- build_rows inside app.load_data, node first then children: hour columns
are rounded to 2 decimals, per-user shares come from
getUserPercentagesByTime rounded to 4 decimals with get(user, 0) defaults;
state is getattr(e, state, opened): Issue never defines a state attribute
and the fetch layer never sets one, so issue rows always carry opened,
while epic rows set state and createdAt to None and every share to 0. -/
def buildRows (users : List String) : Workitem → List Row
  | .mk d cs =>
    let row : Row :=
      if d.tag = some "issue" then
        let percs := (getUserPercentagesByTime d).1
        { typ := d.tag, titel := d.title, iid := d.id, parentIID := flatParent d.parent
        , hours := round2 d.hoursSpent, estimate := round2 d.hoursEstimate
        , createdAt := d.createdAt, state := some "opened"
        , shares := users.map (fun u => (u, round4 ((lookupA u percs).getD 0))) }
      else
        { typ := d.tag, titel := d.title, iid := d.id, parentIID := flatParent d.parent
        , hours := round2 d.hoursSpent, estimate := round2 d.hoursEstimate
        , createdAt := none, state := none
        , shares := users.map (fun u => (u, 0)) }
    row :: buildRowsList users cs
termination_by structural t => t

/-- The child loop of build_rows. -/
def buildRowsList (users : List String) : List Workitem → List Row
  | [] => []
  | c :: cs => buildRows users c ++ buildRowsList users cs
termination_by structural l => l
end

mutual
/-- build_filtered_rows shared by filter_data_by_date and
filter_data_by_date_range: an issue row carries its windowed hours (rounded
to 2 decimals) and windowed shares (rounded to 4); children are processed
after the row. For an epic the source appends a placeholder row, recurses,
then rewrites the row in place: its hours become the rounded sum of the
rows whose Parent IID equals the epic id (with unique ids these are exactly
the rows of its immediate children; the source scans the global row list,
which agrees with the subtree scan here under id uniqueness), and when that
sum is positive each share is rewritten as the hours weighted average of
the child row shares, rounded to 4 decimals. state is getattr(e, state,
opened) for issues and None for epics, as in build_rows. -/
def buildFilteredRows (users : List String) (w : Win) : Workitem → List Row
  | .mk d cs =>
    if d.tag = some "issue" then
      let fr := filterIssueHours w d.userTimeMap
      let percShare : String → ℚ := fun u =>
        if 0 < fr.1 then
          match lookupA u fr.2 with
          | some t => t / fr.1
          | none => 0
        else 0
      let row : Row :=
        { typ := d.tag, titel := d.title, iid := d.id, parentIID := flatParent d.parent
        , hours := round2 fr.1, estimate := round2 d.hoursEstimate
        , createdAt := d.createdAt, state := some "opened"
        , shares := users.map (fun u => (u, round4 (percShare u))) }
      row :: buildFilteredRowsList users w cs
    else
      let childRows := buildFilteredRowsList users w cs
      let childOfE := childRows.filter (fun r => r.parentIID == d.id)
      let total := (childOfE.map Row.hours).sum
      let shares :=
        if 0 < total then
          users.map (fun u =>
            (u, round4 ((childOfE.map (fun r => r.hours * (lookupA u r.shares).getD 0)).sum / total)))
        else users.map (fun u => (u, (0 : ℚ)))
      let row : Row :=
        { typ := d.tag, titel := d.title, iid := d.id, parentIID := flatParent d.parent
        , hours := round2 total, estimate := round2 d.hoursEstimate
        , createdAt := none, state := none, shares := shares }
      row :: childRows
termination_by structural t => t

/-- The child loop of build_filtered_rows. -/
def buildFilteredRowsList (users : List String) (w : Win) : List Workitem → List Row
  | [] => []
  | c :: cs => buildFilteredRows users w c ++ buildFilteredRowsList users w cs
termination_by structural l => l
end

/-- The three status buckets of the cumulative flow computation. -/
inductive CfdBucket where
  | todo
  | inProgress
  | done
  deriving DecidableEq, Repr

/-- Per-day status record emitted by the cumulative flow passes. -/
structure CfdCounts where
  todo : Nat
  inProgress : Nat
  done : Nat
  total : Nat
  deriving DecidableEq, Repr

/-- The per-issue body of the day loop in calculate_cfd_stats and
calculate_cfd_stats_date_range: a missing createdAt is skipped, a parse
failure is skipped by the except continue, an issue created after the day
is not counted, and otherwise the strict precedence applies: state closed
first, else windowed hours positive, else todo. -/
def cfdClassify (day : ℤ) (r : Row) : Option CfdBucket :=
  match r.createdAt with
  | none => none
  | some none => none
  | some (some c) =>
    if c ≤ day then
      some (if r.state == some "closed" then .done
            else if 0 < r.hours then .inProgress else .todo)
    else none

/-- The issue loop of one day of the cumulative flow computation, yielding
the todo, in progress and done counters. -/
def cfdDayCounts (day : ℤ) : List Row → Nat × Nat × Nat
  | [] => (0, 0, 0)
  | r :: rs =>
    let c := cfdDayCounts day rs
    match cfdClassify day r with
    | some .todo => (c.1 + 1, c.2.1, c.2.2)
    | some .inProgress => (c.1, c.2.1 + 1, c.2.2)
    | some .done => (c.1, c.2.1, c.2.2 + 1)
    | none => c

/-- One emitted day record: total is todo + in_progress + done, as in the
daily_status assignment of both cumulative flow passes. -/
def cfdDay (issues : List Row) (day : ℤ) : CfdCounts :=
  let c := cfdDayCounts day issues
  { todo := c.1, inProgress := c.2.1, done := c.2.2, total := c.1 + c.2.1 + c.2.2 }

/-- The consecutive day labels emitted by the while loop from a to b. -/
def dayRange (a b : ℤ) : List ℤ :=
  (List.range (b - a + 1).toNat).map (fun i => a + i)

/-- calculate_cfd_stats_date_range: one record per day of the range. -/
def calculate_cfd_stats_date_range (issues : List Row) (startD endD : ℤ) :
    List (ℤ × CfdCounts) :=
  (dayRange startD endD).map (fun day => (day, cfdDay issues day))

/-- calculate_cfd_stats: identical day loop; the endpoints derive from the
days argument and the current wall clock, taken here as parameters. -/
def calculate_cfd_stats (issues : List Row) (cutoffD nowD : ℤ) :
    List (ℤ × CfdCounts) :=
  (dayRange cutoffD nowD).map (fun day => (day, cfdDay issues day))

mutual
/-- Shape of a tree produced by timetracker.accumulateEpicTree: every node
is tagged issue or epic, and issue nodes are leaves (the builder only ever
attaches children to epics). -/
def builtTree : Workitem → Bool
  | .mk d cs =>
    ((decide (d.tag = some "issue") && cs.isEmpty) || decide (d.tag = some "epic")) &&
      builtTreeList cs
termination_by structural t => t

/-- builtTree over a children list. -/
def builtTreeList : List Workitem → Bool
  | [] => true
  | c :: cs => builtTree c && builtTreeList cs
termination_by structural l => l
end

mutual
/-- Every epic node still carries the zero totals of Workitem.__init__:
the state of a freshly built, not yet accumulated tree. -/
def freshEpics : Workitem → Bool
  | .mk d cs =>
    (if d.tag = some "epic" then decide (d.hoursEstimate = 0 ∧ d.hoursSpent = 0) else true) &&
      freshEpicsList cs
termination_by structural t => t

/-- freshEpics over a children list. -/
def freshEpicsList : List Workitem → Bool
  | [] => true
  | c :: cs => freshEpics c && freshEpicsList cs
termination_by structural l => l
end

mutual
/-- Accumulation invariant: every epic node carries exactly the sums of the
current totals of its children. -/
def accInv : Workitem → Bool
  | .mk d cs =>
    (if d.tag = some "epic" then
      decide (d.hoursEstimate = (cs.map rootEst).sum ∧ d.hoursSpent = (cs.map rootSpent).sum)
    else true) && accInvList cs
termination_by structural t => t

/-- accInv over a children list. -/
def accInvList : List Workitem → Bool
  | [] => true
  | c :: cs => accInv c && accInvList cs
termination_by structural l => l
end

mutual
/-- The id, hoursEstimate and hoursSpent of every issue node, in tree
order: the source-given figures that accumulation must not disturb. -/
def issuesOf : Workitem → List (Option Int × ℚ × ℚ)
  | .mk d cs =>
    (if d.tag = some "issue" then [(d.id, d.hoursEstimate, d.hoursSpent)] else []) ++
      issuesOfList cs
termination_by structural t => t

/-- issuesOf over a children list. -/
def issuesOfList : List Workitem → List (Option Int × ℚ × ℚ)
  | [] => []
  | c :: cs => issuesOf c ++ issuesOfList cs
termination_by structural l => l
end

/-- Definition following the words of the spec, for comparison with the
code: an epic windowed total obtained by summing the full precision
windowed hours of the children and rounding only at the point of output. -/
def specEpicWindowedHours (w : Win) (t : Workitem) : ℚ :=
  round2 ((t.children.map (fun c => (filterIssueHours w c.data.userTimeMap).1)).sum)

/-- Structural induction over a Workitem using membership in the children
list. -/
theorem wtreeInd (P : Workitem → Prop)
    (h : ∀ d cs, (∀ c ∈ cs, P c) → P (Workitem.mk d cs)) :
    ∀ t, P t := fun t =>
  match t with
  | .mk d cs => h d cs (fun c hc => wtreeInd P h c)
termination_by t => sizeOf t
decreasing_by
  have := List.sizeOf_lt_of_mem hc
  simp
  omega

theorem accChildren_eq (l : List Workitem) : accChildren l = l.map accumulateTimes := by
  induction l with
  | nil => simp [accChildren]
  | cons c cs ih => simp [accChildren, ih]

theorem builtTreeList_iff (l : List Workitem) :
    builtTreeList l = true ↔ ∀ c ∈ l, builtTree c = true := by
  induction l with
  | nil => simp [builtTreeList]
  | cons c cs ih => simp [builtTreeList, ih]

theorem freshEpicsList_iff (l : List Workitem) :
    freshEpicsList l = true ↔ ∀ c ∈ l, freshEpics c = true := by
  induction l with
  | nil => simp [freshEpicsList]
  | cons c cs ih => simp [freshEpicsList, ih]

theorem accInvList_iff (l : List Workitem) :
    accInvList l = true ↔ ∀ c ∈ l, accInv c = true := by
  induction l with
  | nil => simp [accInvList]
  | cons c cs ih => simp [accInvList, ih]

theorem issuesOfList_eq (l : List Workitem) :
    issuesOfList l = (l.map issuesOf).flatten := by
  induction l with
  | nil => simp [issuesOfList]
  | cons c cs ih => simp [issuesOfList, ih]

theorem accumulateTimes_issue (d : WData) (cs : List Workitem)
    (h : d.tag = some "issue") :
    accumulateTimes (Workitem.mk d cs) =
      (Workitem.mk d cs, d.hoursEstimate, d.hoursSpent) := by
  simp [accumulateTimes, h]

theorem accumulateTimes_other (d : WData) (cs : List Workitem)
    (h1 : ¬d.tag = some "issue") (h2 : ¬d.tag = some "epic") :
    accumulateTimes (Workitem.mk d cs) =
      (Workitem.mk d cs, d.hoursEstimate, d.hoursSpent) := by
  simp [accumulateTimes, h1, h2]

theorem accumulateTimes_epic (d : WData) (cs : List Workitem)
    (h : d.tag = some "epic") :
    accumulateTimes (Workitem.mk d cs) =
      (Workitem.mk { d with
          hoursEstimate := d.hoursEstimate + (cs.map (fun c => (accumulateTimes c).2.1)).sum,
          hoursSpent := d.hoursSpent + (cs.map (fun c => (accumulateTimes c).2.2)).sum }
        (cs.map (fun c => (accumulateTimes c).1)),
       d.hoursEstimate + (cs.map (fun c => (accumulateTimes c).2.1)).sum,
       d.hoursSpent + (cs.map (fun c => (accumulateTimes c).2.2)).sum) := by
  have hne : ¬d.tag = some "issue" := by rw [h]; simp
  simp [accumulateTimes, h, hne, accChildren_eq, List.map_map, Function.comp_def]

theorem accumulateTimes_ret (t : Workitem) :
    (accumulateTimes t).2.1 = rootEst (accumulateTimes t).1 ∧
    (accumulateTimes t).2.2 = rootSpent (accumulateTimes t).1 := by
  cases t with
  | mk d cs =>
    by_cases h1 : d.tag = some "issue"
    · rw [accumulateTimes_issue d cs h1]; simp [rootEst, rootSpent, Workitem.data]
    · by_cases h2 : d.tag = some "epic"
      · rw [accumulateTimes_epic d cs h2]; simp [rootEst, rootSpent, Workitem.data]
      · rw [accumulateTimes_other d cs h1 h2]; simp [rootEst, rootSpent, Workitem.data]

/-- C1: after a single invocation of accumulateTimes on a freshly built
tree (every node tagged issue or epic, issues at the leaves, every epic
still carrying its initial zero totals), every epic node holds exactly the
sums of the current totals of its children, recursively down to the issue
leaves, and every issue node keeps its source-given hoursEstimate and
hoursSpent unchanged. -/
theorem accumulateTimes_fresh_tree_epic_sums (t : Workitem) :
    builtTree t = true → freshEpics t = true →
    accInv (accumulateTimes t).1 = true ∧
    issuesOf (accumulateTimes t).1 = issuesOf t := by
  induction t using wtreeInd with
  | h d cs ih =>
    intro hb hf
    simp only [builtTree, Bool.and_eq_true, Bool.or_eq_true, decide_eq_true_eq,
      List.isEmpty_iff] at hb
    obtain ⟨htag, hlist⟩ := hb
    simp only [freshEpics, Bool.and_eq_true] at hf
    obtain ⟨hfe, hflist⟩ := hf
    rw [builtTreeList_iff] at hlist
    rw [freshEpicsList_iff] at hflist
    rcases htag with ⟨hi, hcs⟩ | hepic
    · subst hcs
      rw [accumulateTimes_issue d [] hi]
      constructor
      · simp [accInv, accInvList, hi]
      · rfl
    · have hne : d.tag ≠ some "issue" := by rw [hepic]; simp
      rw [accumulateTimes_epic d cs hepic]
      rw [hepic, if_pos rfl] at hfe
      obtain ⟨he0, hs0⟩ := of_decide_eq_true hfe
      have hchild : ∀ c ∈ cs,
          accInv (accumulateTimes c).1 = true ∧
          issuesOf (accumulateTimes c).1 = issuesOf c :=
        fun c hc => ih c hc (hlist c hc) (hflist c hc)
      constructor
      · simp only [accInv, Bool.and_eq_true]
        constructor
        · simp only [hepic, List.map_map, Function.comp_def, if_true, decide_eq_true_eq]
          constructor
          · rw [he0, zero_add]
            congr 1
            exact List.map_congr_left fun c hc => (accumulateTimes_ret c).1
          · rw [hs0, zero_add]
            congr 1
            exact List.map_congr_left fun c hc => (accumulateTimes_ret c).2
        · rw [accInvList_iff]
          intro r hr
          rw [List.mem_map] at hr
          obtain ⟨c, hc, rfl⟩ := hr
          exact (hchild c hc).1
      · simp only [issuesOf, hepic]
        rw [if_neg (by simp), if_neg (by simp)]
        simp only [List.nil_append]
        rw [issuesOfList_eq, issuesOfList_eq, List.map_map, Function.comp_def]
        congr 1
        exact List.map_congr_left fun c hc => (hchild c hc).2

/-- Concrete tree for the accumulation witnesses: an epic with an epic
child and two issues carrying source-given totals. -/
def exTreeC1 : Workitem :=
  .mk { tag := some "epic", id := some 1, title := "Root", parent := none,
        hoursEstimate := 0, hoursSpent := 0, userTimeMap := [], labels := [], createdAt := none }
    [ .mk { tag := some "issue", id := some 2, title := "A", parent := some (some 1),
            hoursEstimate := 4, hoursSpent := 3, userTimeMap := [], labels := [], createdAt := none } [],
      .mk { tag := some "epic", id := some 3, title := "Sub", parent := some (some 1),
            hoursEstimate := 0, hoursSpent := 0, userTimeMap := [], labels := [], createdAt := none }
        [ .mk { tag := some "issue", id := some 4, title := "B", parent := some (some 3),
                hoursEstimate := 1, hoursSpent := 1 / 2, userTimeMap := [], labels := [],
                createdAt := none } [] ] ]

/-- Witness for C1 at the concrete tree exTreeC1. -/
theorem accumulateTimes_fresh_tree_epic_sums_app :
    accInv (accumulateTimes exTreeC1).1 = true ∧
    issuesOf (accumulateTimes exTreeC1).1 = issuesOf exTreeC1 :=
  accumulateTimes_fresh_tree_epic_sums exTreeC1
    (by simp [exTreeC1, builtTree, builtTreeList])
    (by simp [exTreeC1, freshEpics, freshEpicsList])

/-- Concrete fresh tree for C2: an epic with a single issue child that has
one spent hour. -/
def exEpicC2 : Workitem :=
  .mk { tag := some "epic", id := some 1, title := "Root", parent := none,
        hoursEstimate := 0, hoursSpent := 0, userTimeMap := [], labels := [], createdAt := none }
    [ .mk { tag := some "issue", id := some 2, title := "A", parent := some (some 1),
            hoursEstimate := 0, hoursSpent := 1, userTimeMap := [], labels := [],
            createdAt := none } [] ]

/-- C2 counterexample: on the freshly built tree exEpicC2 the root epic
holds hoursSpent 1 after one invocation of accumulateTimes and hoursSpent 2
after a second invocation, so the second invocation does not leave the epic
totals at their first-invocation values. -/
theorem accumulateTimes_twice_changes_totals :
    rootSpent (accumulateTimes (accumulateTimes exEpicC2).1).1 ≠
      rootSpent (accumulateTimes exEpicC2).1 := by
  simp [exEpicC2, accumulateTimes, accChildren, rootSpent, Workitem.data]

/-- C2 amended: accumulateTimes is not idempotent. The epic branch adds the
children pairs onto the current totals without resetting them, so on a
fresh one-level epic whose children are all issues a second invocation
yields exactly twice the totals of the first. -/
theorem accumulateTimes_second_call_doubles (d : WData) (ds : List WData)
    (hd : d.tag = some "epic") (he : d.hoursEstimate = 0) (hs : d.hoursSpent = 0)
    (hds : ∀ c ∈ ds, c.tag = some "issue") :
    rootEst (accumulateTimes
        (accumulateTimes (Workitem.mk d (ds.map (fun c => Workitem.mk c [])))).1).1 =
      2 * rootEst (accumulateTimes (Workitem.mk d (ds.map (fun c => Workitem.mk c [])))).1 ∧
    rootSpent (accumulateTimes
        (accumulateTimes (Workitem.mk d (ds.map (fun c => Workitem.mk c [])))).1).1 =
      2 * rootSpent (accumulateTimes (Workitem.mk d (ds.map (fun c => Workitem.mk c [])))).1 := by
  set cs := ds.map (fun c => Workitem.mk c []) with hcs
  have hacc : ∀ c ∈ cs, accumulateTimes c = (c, rootEst c, rootSpent c) := by
    intro c hc
    rw [hcs] at hc
    obtain ⟨w, hw, rfl⟩ := List.mem_map.1 hc
    rw [accumulateTimes_issue w [] (hds w hw)]
    simp [rootEst, rootSpent, Workitem.data]
  have hmap1 : cs.map (fun c => (accumulateTimes c).1) = cs := by
    have h0 : cs.map (fun c => (accumulateTimes c).1) = cs.map (fun c => c) :=
      List.map_congr_left (fun c hc => by rw [hacc c hc])
    simpa using h0
  have hmapE : cs.map (fun c => (accumulateTimes c).2.1) = cs.map rootEst :=
    List.map_congr_left (fun c hc => by rw [hacc c hc])
  have hmapS : cs.map (fun c => (accumulateTimes c).2.2) = cs.map rootSpent :=
    List.map_congr_left (fun c hc => by rw [hacc c hc])
  rw [accumulateTimes_epic d cs hd]
  simp only [hmap1, hmapE, hmapS]
  have hd2 : ({ d with
      hoursEstimate := d.hoursEstimate + (cs.map rootEst).sum,
      hoursSpent := d.hoursSpent + (cs.map rootSpent).sum } : WData).tag = some "epic" := hd
  rw [accumulateTimes_epic _ cs hd2]
  simp only [hmap1, hmapE, hmapS, rootEst, rootSpent, Workitem.data]
  rw [he, hs]
  constructor <;> ring

/-- Witness for the amended C2 at a concrete fresh one-level epic. -/
theorem accumulateTimes_second_call_doubles_app :
    rootEst (accumulateTimes (accumulateTimes
        (Workitem.mk
          { tag := some "epic", id := some 1, title := "R", parent := none,
            hoursEstimate := 0, hoursSpent := 0, userTimeMap := [], labels := [],
            createdAt := none }
          ([{ tag := some "issue", id := some 2, title := "A", parent := none,
              hoursEstimate := 4, hoursSpent := 3, userTimeMap := [], labels := [],
              createdAt := none }].map (fun c => Workitem.mk c [])))).1).1 =
      2 * rootEst (accumulateTimes
        (Workitem.mk
          { tag := some "epic", id := some 1, title := "R", parent := none,
            hoursEstimate := 0, hoursSpent := 0, userTimeMap := [], labels := [],
            createdAt := none }
          ([{ tag := some "issue", id := some 2, title := "A", parent := none,
              hoursEstimate := 4, hoursSpent := 3, userTimeMap := [], labels := [],
              createdAt := none }].map (fun c => Workitem.mk c [])))).1 :=
  (accumulateTimes_second_call_doubles _ _ rfl rfl rfl
    (by intro c hc; simp at hc; rw [hc])).1

theorem lookupA_map_key {α : Type} (l : List (String × α)) (g : String → ℚ) (u : String)
    (hu : ∃ a, (u, a) ∈ l) :
    lookupA u (l.map (fun p => (p.1, g p.1))) = some (g u) := by
  induction l with
  | nil => simp at hu
  | cons p ps ih =>
    by_cases hp : p.1 = u
    · simp [lookupA, hp]
    · simp only [List.map_cons, lookupA, if_neg hp]
      apply ih
      obtain ⟨a, ha⟩ := hu
      rcases List.mem_cons.1 ha with h | h
      · exact absurd (by rw [← h]) hp
      · exact ⟨a, h⟩

/-- The worked example of the spec: entries (Nivek, 0.5), (Nivek, 2.5),
(Bürek, 0.5) as built by the demo block of Issue.py. -/
def exIssueC3 : WData :=
  { tag := some "issue", id := some 1, title := "Hello", parent := none,
    hoursEstimate := 0, hoursSpent := 0,
    userTimeMap :=
      [ ("Nivek", [{ zeit := 1 / 2, datum := some 10 }, { zeit := 5 / 2, datum := some 20 }]),
        ("Bürek", [{ zeit := 1 / 2, datum := some 30 }]) ],
    labels := [], createdAt := none }

/-- C3: getUserPercentagesByTime maps every user of a nonempty time map
with nonzero grand total to that user total divided by the sum of all user
totals; on the worked example of the spec it yields Nivek 6/7 and
Bürek 1/7; and an issue with no entries yields the empty mapping. -/
theorem getUserPercentagesByTime_shares :
    (∀ i : WData, (i.userTimeMap.map Prod.fst).Nodup → sumUserTotals i ≠ 0 →
      ∀ u, (∃ es, (u, es) ∈ i.userTimeMap) →
        lookupA u (getUserPercentagesByTime i).1 =
          some (getUserTotalTime i u / sumUserTotals i)) ∧
    (getUserPercentagesByTime exIssueC3).1 = [("Nivek", 6 / 7), ("Bürek", 1 / 7)] ∧
    (∀ i : WData, i.userTimeMap = [] → (getUserPercentagesByTime i).1 = []) := by
  refine ⟨?_, by
    simp [getUserPercentagesByTime, exIssueC3, getUserTotalTime, lookupA]
    norm_num, ?_⟩
  · intro i hnd htot u hu
    have hne : i.userTimeMap ≠ [] := by
      obtain ⟨es, hes⟩ := hu
      intro h0
      rw [h0] at hes
      exact absurd hes (List.not_mem_nil _)
    have htoteq :
        ((i.userTimeMap.map (fun p => (p.1, getUserTotalTime i p.1))).map Prod.snd).sum =
          sumUserTotals i := by
      rw [List.map_map]; rfl
    simp only [getUserPercentagesByTime]
    rw [if_neg (by intro hcon; exact hne hcon.2)]
    simp only [htoteq]
    rw [if_neg (by intro hcon; exact htot hcon.1)]
    rw [List.map_map]
    exact lookupA_map_key i.userTimeMap
      (fun x => getUserTotalTime i x / sumUserTotals i) u hu
  · intro i h
    by_cases h1 : i.hoursSpent < 1 / 1000 ∧ i.userTimeMap = []
    · rw [getUserPercentagesByTime, if_pos h1]
    · simp only [getUserPercentagesByTime, if_neg h1]
      simp [h]

/-- Witness for C3: the general share formula applied to the Nivek entry of
the worked example. -/
theorem getUserPercentagesByTime_shares_app :
    lookupA "Nivek" (getUserPercentagesByTime exIssueC3).1 =
      some (getUserTotalTime exIssueC3 "Nivek" / sumUserTotals exIssueC3) :=
  getUserPercentagesByTime_shares.1 exIssueC3 (by simp [exIssueC3])
    (by simp [sumUserTotals, exIssueC3, getUserTotalTime, lookupA]; norm_num) "Nivek"
    ⟨[{ zeit := 1 / 2, datum := some 10 }, { zeit := 5 / 2, datum := some 20 }],
      by simp [exIssueC3]⟩

/-- Issue with a stored hoursSpent of 5 but logged entries totalling 1:
getUserPercentagesByTime overwrites hoursSpent with 1. -/
def exIssueC7 : WData :=
  { tag := some "issue", id := some 9, title := "t", parent := none,
    hoursEstimate := 0, hoursSpent := 5,
    userTimeMap := [("A", [{ zeit := 1, datum := some 0 }])],
    labels := [], createdAt := none }

/-- C7 counterexample: calling getUserPercentagesByTime on exIssueC7 does
not leave hoursSpent unchanged: the stored value 5 becomes 1, the sum of
the per-user totals. -/
theorem getUserPercentagesByTime_overwrites_hoursSpent :
    (getUserPercentagesByTime exIssueC7).2.hoursSpent ≠ exIssueC7.hoursSpent := by
  simp [getUserPercentagesByTime, exIssueC7, getUserTotalTime, lookupA]

/-- C7 amended: getUserPercentagesByTime leaves every stored field of the
issue unchanged except hoursSpent, which it overwrites with the sum of the
per-user totals whenever the early guard (hoursSpent below 0.001 and empty
map) does not fire. -/
theorem getUserPercentagesByTime_frame (i : WData) :
    (getUserPercentagesByTime i).2.tag = i.tag ∧
    (getUserPercentagesByTime i).2.id = i.id ∧
    (getUserPercentagesByTime i).2.title = i.title ∧
    (getUserPercentagesByTime i).2.parent = i.parent ∧
    (getUserPercentagesByTime i).2.hoursEstimate = i.hoursEstimate ∧
    (getUserPercentagesByTime i).2.userTimeMap = i.userTimeMap ∧
    (getUserPercentagesByTime i).2.labels = i.labels ∧
    (getUserPercentagesByTime i).2.createdAt = i.createdAt ∧
    (getUserPercentagesByTime i).2.hoursSpent =
      (if i.hoursSpent < 1 / 1000 ∧ i.userTimeMap = [] then i.hoursSpent
       else sumUserTotals i) := by
  have hsum1 :
      ((i.userTimeMap.map (fun p => (p.1, getUserTotalTime i p.1))).map Prod.snd).sum =
        sumUserTotals i := by
    rw [List.map_map]; rfl
  have hsum2 :
      (i.userTimeMap.map (fun p => Prod.snd (p.1, getUserTotalTime i p.1))).sum =
        sumUserTotals i := rfl
  have hsum3 :
      (i.userTimeMap.map (fun p => getUserTotalTime i p.1)).sum = sumUserTotals i := rfl
  by_cases h1 : i.hoursSpent < 1 / 1000 ∧ i.userTimeMap = []
  · simp only [getUserPercentagesByTime, if_pos h1]
    simp
  · simp only [getUserPercentagesByTime, if_neg h1]
    by_cases h2 : ((i.userTimeMap.map (fun p => (p.1, getUserTotalTime i p.1))).map
        Prod.snd).sum = 0 ∧ i.userTimeMap ≠ []
    · simp only [if_pos h2]
      simp [hsum1, hsum2, hsum3, Function.comp_def]
    · simp only [if_neg h2]
      simp [hsum1, hsum2, hsum3, Function.comp_def]

/-- C8: addChild returns false and mutates nothing when a child with the
same id (under Python ==, None included) is already present; attaching a
new child sets its parent to the receiver, appends it, and returns true;
and immediately re-attaching the attached child returns false, leaving the
children length at its incremented value. -/
theorem addChild_attach (self item : Workitem) :
    ((∃ c ∈ self.children, c.data.id = item.data.id) →
        addChild self item = (self, item, false)) ∧
    ((¬∃ c ∈ self.children, c.data.id = item.data.id) →
        addChild self item =
          (Workitem.mk self.data (self.children ++
              [Workitem.mk { item.data with parent := some self.data.id } item.children]),
           Workitem.mk { item.data with parent := some self.data.id } item.children, true) ∧
        addChild (addChild self item).1 (addChild self item).2.1 =
          ((addChild self item).1, (addChild self item).2.1, false) ∧
        (addChild self item).1.children.length = self.children.length + 1) := by
  constructor
  · intro h
    rw [addChild, if_pos]
    rw [List.any_eq_true]
    obtain ⟨c, hc, he⟩ := h
    exact ⟨c, hc, by rw [he]; exact beq_self_eq_true _⟩
  · intro h
    have hcond : ¬(self.children.any (fun c => item.data.id == c.data.id) = true) := by
      rw [List.any_eq_true]
      rintro ⟨c, hc, he⟩
      exact h ⟨c, hc, (beq_iff_eq.mp he).symm⟩
    have h1 : addChild self item =
        (Workitem.mk self.data (self.children ++
            [Workitem.mk { item.data with parent := some self.data.id } item.children]),
         Workitem.mk { item.data with parent := some self.data.id } item.children, true) := by
      rw [addChild, if_neg hcond]
    refine ⟨h1, ?_, ?_⟩
    · rw [h1]
      rw [addChild, if_pos]
      simp [Workitem.children, List.any_append, Workitem.data]
    · rw [h1]
      simp [Workitem.children]

/-- Receiver for the C8 witness: an epic with no children yet. -/
def exSelfC8 : Workitem :=
  .mk { tag := some "epic", id := some 1, title := "R", parent := none,
        hoursEstimate := 0, hoursSpent := 0, userTimeMap := [], labels := [],
        createdAt := none } []

/-- Child for the C8 witness. -/
def exItemC8 : Workitem :=
  .mk { tag := some "issue", id := some 2, title := "A", parent := none,
        hoursEstimate := 0, hoursSpent := 0, userTimeMap := [], labels := [],
        createdAt := none } []

/-- Witness for C8: a fresh attach succeeds and the immediate re-attach of
the same child fails without mutation. -/
theorem addChild_attach_app :
    (addChild exSelfC8 exItemC8).2.2 = true ∧
    (addChild (addChild exSelfC8 exItemC8).1 (addChild exSelfC8 exItemC8).2.1).2.2 = false := by
  have h := (addChild_attach exSelfC8 exItemC8).2 (by simp [exSelfC8, Workitem.children])
  exact ⟨by rw [h.1], by rw [h.2.1]⟩

/-- Two distinct items that both lack an id. -/
def exNoId1 : Workitem :=
  .mk { tag := some "issue", id := none, title := "a", parent := none,
        hoursEstimate := 0, hoursSpent := 0, userTimeMap := [], labels := [],
        createdAt := none } []

/-- Second item without an id, with a different title. -/
def exNoId2 : Workitem :=
  .mk { tag := some "issue", id := none, title := "b", parent := none,
        hoursEstimate := 0, hoursSpent := 0, userTimeMap := [], labels := [],
        createdAt := none } []

/-- C9 counterexample: two distinct items that both lack an id compare
equal under the implemented __eq__, because Python None == None holds in
the id comparison; the claim says two such items are never equal. -/
theorem wiEq_none_ids_equal : wiEq exNoId1 (some exNoId2) = true := by
  simp [wiEq, exNoId1, exNoId2, Workitem.data]

/-- C9 amended: a == b holds exactly when the two ids are equal, with a
missing id equal to a missing id; comparison against None is always
false. -/
theorem wiEq_by_id (a b : Workitem) :
    (wiEq a (some b) = true ↔ a.data.id = b.data.id) ∧ wiEq a none = false := by
  constructor
  · simp [wiEq]
  · rfl

theorem userWindowTotal_error (w : Win) (es : List TimeEntry)
    (h : ∀ e ∈ es, e.datum = none) (hne : es ≠ []) :
    userWindowTotal w es = .error () := by
  cases es with
  | nil => exact absurd rfl hne
  | cons e es2 => simp [userWindowTotal, h e (List.mem_cons_self e es2)]

theorem tryPhase_all_malformed (w : Win) (m : List (String × List TimeEntry))
    (hall : ∀ p ∈ m, ∀ e ∈ p.2, e.datum = none) (hne : ∃ p ∈ m, p.2 ≠ []) :
    ∀ h fm, tryPhase w m h fm = (h, fm, true) := by
  induction m with
  | nil => simp at hne
  | cons p rest ih =>
    intro h fm
    obtain ⟨u, es⟩ := p
    by_cases hes : es = []
    · subst hes
      rw [tryPhase]
      simp only [userWindowTotal, lt_self_iff_false, if_false]
      apply ih
      · intro q hq e he
        exact hall q (List.mem_cons_of_mem _ hq) e he
      · obtain ⟨q, hq, hqne⟩ := hne
        rcases List.mem_cons.1 hq with rfl | hq2
        · exact absurd rfl hqne
        · exact ⟨q, hq2, hqne⟩
    · rw [tryPhase,
        userWindowTotal_error w es
          (fun e he => hall (u, es) (List.mem_cons_self _ _) e he) hes]

theorem exceptPhase_fst (m : List (String × List TimeEntry)) :
    ∀ h fm, (exceptPhase m h fm).1 = h + fullSum m := by
  induction m with
  | nil => intro h fm; simp [exceptPhase, fullSum]
  | cons p rest ih =>
    intro h fm
    obtain ⟨u, es⟩ := p
    rw [exceptPhase, ih]
    simp [fullSum]
    ring

/-- Entries of the C4 counterexample: a single five-hour entry whose date
string is malformed. -/
def exBadMapC4 : List (String × List TimeEntry) :=
  [("U", [{ zeit := 5, datum := none }])]

/-- C4 counterexample: with a cutoff window and an issue whose only entry
has a malformed date (so every entry of the issue fails to parse), the
windowed computation yields the full 5 hours, not the zero hours the claim
requires for an issue all of whose entries fail to parse. -/
theorem windowed_malformed_not_zero :
    (filterIssueHours (Win.lookback (some 100)) exBadMapC4).1 = 5 ∧ (5 : ℚ) ≠ 0 := by
  constructor
  · simp [filterIssueHours, tryPhase, userWindowTotal, exceptPhase, exBadMapC4, setA]
  · norm_num

/-- C4 amended: a malformed entry date is not skipped entry-wise; it aborts
the windowed walk for the whole issue and the except handler then adds
every entry at full, unwindowed value. In particular, when every entry of
the issue has a malformed date (and at least one entry exists), the issue
contributes its full lifetime total rather than zero; the computation is
total, so the aggregation never fails. -/
theorem windowed_all_malformed_full_total (w : Win) (m : List (String × List TimeEntry))
    (hall : ∀ p ∈ m, ∀ e ∈ p.2, e.datum = none) (hne : ∃ p ∈ m, p.2 ≠ []) :
    (filterIssueHours w m).1 = fullSum m := by
  rw [filterIssueHours, tryPhase_all_malformed w m hall hne 0 []]
  simp only []
  rw [exceptPhase_fst]
  ring

/-- Witness for the amended C4 at a concrete two-entry issue. -/
theorem windowed_all_malformed_full_total_app :
    (filterIssueHours (Win.lookback (some 100))
        [("V", [{ zeit := 2, datum := none }, { zeit := 3, datum := none }])]).1 =
      fullSum [("V", [{ zeit := 2, datum := none }, { zeit := 3, datum := none }])] :=
  windowed_all_malformed_full_total _ _ (by simp) (by simp)

/-- Row predicate: the creation date is present, parses, and falls on or
before the given day (the only rows the day loop counts). -/
def createdOnOrBefore (day : ℤ) (r : Row) : Bool :=
  match r.createdAt with
  | some (some c) => decide (c ≤ day)
  | _ => false

theorem cfdDayCounts_spec (day : ℤ) (rs : List Row) :
    (cfdDayCounts day rs).1 =
      rs.countP (fun r => createdOnOrBefore day r && !(r.state == some "closed") &&
        !(decide (0 < r.hours))) ∧
    (cfdDayCounts day rs).2.1 =
      rs.countP (fun r => createdOnOrBefore day r && !(r.state == some "closed") &&
        decide (0 < r.hours)) ∧
    (cfdDayCounts day rs).2.2 =
      rs.countP (fun r => createdOnOrBefore day r && (r.state == some "closed")) ∧
    (cfdDayCounts day rs).1 + (cfdDayCounts day rs).2.1 + (cfdDayCounts day rs).2.2 =
      rs.countP (createdOnOrBefore day) := by
  induction rs with
  | nil => simp [cfdDayCounts]
  | cons r rest ih =>
    obtain ⟨ih1, ih2, ih3, ih4⟩ := ih
    simp only [cfdDayCounts, List.countP_cons]
    rcases hca : r.createdAt with _ | ca
    · have hco : createdOnOrBefore day r = false := by simp [createdOnOrBefore, hca]
      have hclass : cfdClassify day r = none := by simp [cfdClassify, hca]
      simp [hclass, hco, ih1, ih2, ih3, ih4]
      omega
    · rcases ca with _ | c
      · have hco : createdOnOrBefore day r = false := by simp [createdOnOrBefore, hca]
        have hclass : cfdClassify day r = none := by simp [cfdClassify, hca]
        simp [hclass, hco, ih1, ih2, ih3, ih4]
        omega
      · by_cases hle : c ≤ day
        · have hco : createdOnOrBefore day r = true := by
            simp [createdOnOrBefore, hca, hle]
          by_cases hcl : r.state = some "closed"
          · have hclass : cfdClassify day r = some CfdBucket.done := by
              simp [cfdClassify, hca, hle, hcl]
            simp [hclass, hco, hcl, ih1, ih2, ih3, ih4]
            omega
          · have hste : (r.state == some "closed") = false := by
              simp [hcl]
            by_cases hpos : (0 : ℚ) < r.hours
            · have hclass : cfdClassify day r = some CfdBucket.inProgress := by
                simp [cfdClassify, hca, hle, hste, hpos]
              simp [hclass, hco, hste, hpos, ih1, ih2, ih3, ih4]
              omega
            · have hclass : cfdClassify day r = some CfdBucket.todo := by
                simp [cfdClassify, hca, hle, hste, hpos]
              simp [hclass, hco, hste, hpos, ih1, ih2, ih3, ih4]
              omega
        · have hco : createdOnOrBefore day r = false := by
            simp [createdOnOrBefore, hca, hle]
          have hclass : cfdClassify day r = none := by
            simp [cfdClassify, hca, hle]
          simp [hclass, hco, ih1, ih2, ih3, ih4]
          omega

theorem cfdDay_spec (issues : List Row) (day : ℤ) :
    (cfdDay issues day).done =
      issues.countP (fun r => createdOnOrBefore day r && (r.state == some "closed")) ∧
    (cfdDay issues day).inProgress =
      issues.countP (fun r => createdOnOrBefore day r && !(r.state == some "closed") &&
        decide (0 < r.hours)) ∧
    (cfdDay issues day).todo =
      issues.countP (fun r => createdOnOrBefore day r && !(r.state == some "closed") &&
        !(decide (0 < r.hours))) ∧
    (cfdDay issues day).total =
      (cfdDay issues day).todo + (cfdDay issues day).inProgress + (cfdDay issues day).done ∧
    (cfdDay issues day).total = issues.countP (createdOnOrBefore day) := by
  obtain ⟨h1, h2, h3, h4⟩ := cfdDayCounts_spec day issues
  exact ⟨h3, h2, h1, rfl, h4⟩

theorem cfd_mem_eq (issues : List Row) (l : List ℤ) (day : ℤ) (counts : CfdCounts)
    (h : (day, counts) ∈ l.map (fun x => (x, cfdDay issues x))) :
    counts = cfdDay issues day := by
  rw [List.mem_map] at h
  obtain ⟨a, _, he⟩ := h
  obtain ⟨h1, h2⟩ := Prod.mk.injEq .. ▸ he
  rw [← h2, h1]

/-- C5: in every day record emitted by either cumulative flow pass, done
counts exactly the issue rows with parseable creation date on or before the
day and state closed, in progress those not closed with positive windowed
hours, todo the remaining rows created on or before the day, the emitted
total is todo + in progress + done, and that total equals the number of
rows with parseable creation date on or before the day, so an issue created
after the day is in no bucket. -/
theorem cfd_day_partition :
    (∀ (issues : List Row) (startD endD day : ℤ) (counts : CfdCounts),
      (day, counts) ∈ calculate_cfd_stats_date_range issues startD endD →
      counts.done =
        issues.countP (fun r => createdOnOrBefore day r && (r.state == some "closed")) ∧
      counts.inProgress =
        issues.countP (fun r => createdOnOrBefore day r && !(r.state == some "closed") &&
          decide (0 < r.hours)) ∧
      counts.todo =
        issues.countP (fun r => createdOnOrBefore day r && !(r.state == some "closed") &&
          !(decide (0 < r.hours))) ∧
      counts.total = counts.todo + counts.inProgress + counts.done ∧
      counts.total = issues.countP (createdOnOrBefore day)) ∧
    (∀ (issues : List Row) (cutoffD nowD day : ℤ) (counts : CfdCounts),
      (day, counts) ∈ calculate_cfd_stats issues cutoffD nowD →
      counts.done =
        issues.countP (fun r => createdOnOrBefore day r && (r.state == some "closed")) ∧
      counts.inProgress =
        issues.countP (fun r => createdOnOrBefore day r && !(r.state == some "closed") &&
          decide (0 < r.hours)) ∧
      counts.todo =
        issues.countP (fun r => createdOnOrBefore day r && !(r.state == some "closed") &&
          !(decide (0 < r.hours))) ∧
      counts.total = counts.todo + counts.inProgress + counts.done ∧
      counts.total = issues.countP (createdOnOrBefore day)) := by
  constructor
  · intro issues startD endD day counts h
    rw [cfd_mem_eq issues (dayRange startD endD) day counts h]
    exact cfdDay_spec issues day
  · intro issues cutoffD nowD day counts h
    rw [cfd_mem_eq issues (dayRange cutoffD nowD) day counts h]
    exact cfdDay_spec issues day

/-- Issue rows for the C5 witness: one closed row created at day 0, one
open row with positive hours created at day 2, one row created later. -/
def exRowsC5 : List Row :=
  [ { typ := some "issue", titel := "A", iid := some 1, parentIID := none, hours := 0,
      estimate := 0, createdAt := some (some 0), state := some "closed", shares := [] },
    { typ := some "issue", titel := "B", iid := some 2, parentIID := none, hours := 2,
      estimate := 0, createdAt := some (some 2), state := some "opened", shares := [] },
    { typ := some "issue", titel := "C", iid := some 3, parentIID := none, hours := 0,
      estimate := 0, createdAt := some (some 9), state := some "opened", shares := [] } ]

/-- Witness for C5 at day 2 of the emitted range 0..3. -/
theorem cfd_day_partition_app :
    (cfdDay exRowsC5 2).done =
      exRowsC5.countP (fun r => createdOnOrBefore 2 r && (r.state == some "closed")) ∧
    (cfdDay exRowsC5 2).inProgress =
      exRowsC5.countP (fun r => createdOnOrBefore 2 r && !(r.state == some "closed") &&
        decide (0 < r.hours)) ∧
    (cfdDay exRowsC5 2).todo =
      exRowsC5.countP (fun r => createdOnOrBefore 2 r && !(r.state == some "closed") &&
        !(decide (0 < r.hours))) ∧
    (cfdDay exRowsC5 2).total =
      (cfdDay exRowsC5 2).todo + (cfdDay exRowsC5 2).inProgress + (cfdDay exRowsC5 2).done ∧
    (cfdDay exRowsC5 2).total = exRowsC5.countP (createdOnOrBefore 2) :=
  cfd_day_partition.1 exRowsC5 0 3 2 (cfdDay exRowsC5 2)
    (by
      have h2 : (2 : ℤ) ∈ dayRange 0 3 := by decide
      exact List.mem_map.2 ⟨2, h2, rfl⟩)

theorem buildRowsList_mem (users : List String) (l : List Workitem) (r : Row) :
    r ∈ buildRowsList users l ↔ ∃ c ∈ l, r ∈ buildRows users c := by
  induction l with
  | nil => simp [buildRowsList]
  | cons c cs ih => simp [buildRowsList, ih]

theorem buildFilteredRowsList_mem (users : List String) (w : Win) (l : List Workitem)
    (r : Row) :
    r ∈ buildFilteredRowsList users w l ↔ ∃ c ∈ l, r ∈ buildFilteredRows users w c := by
  induction l with
  | nil => simp [buildFilteredRowsList]
  | cons c cs ih => simp [buildFilteredRowsList, ih]

theorem buildRows_state (users : List String) (t : Workitem) :
    ∀ r ∈ buildRows users t,
      (r.typ = some "issue" → r.state = some "opened") ∧
      (r.typ ≠ some "issue" → r.state = none) := by
  induction t using wtreeInd with
  | h d cs ih =>
    intro r hr
    rw [buildRows] at hr
    rcases List.mem_cons.1 hr with rfl | hr2
    · by_cases hd : d.tag = some "issue"
      · simp [if_pos hd, hd]
      · simp [if_neg hd, hd]
    · obtain ⟨c, hc, hrc⟩ := (buildRowsList_mem users cs r).1 hr2
      exact ih c hc r hrc

theorem buildFilteredRows_state (users : List String) (w : Win) (t : Workitem) :
    ∀ r ∈ buildFilteredRows users w t,
      (r.typ = some "issue" → r.state = some "opened") ∧
      (r.typ ≠ some "issue" → r.state = none) := by
  induction t using wtreeInd with
  | h d cs ih =>
    intro r hr
    rw [buildFilteredRows] at hr
    by_cases hd : d.tag = some "issue"
    · rw [if_pos hd] at hr
      rcases List.mem_cons.1 hr with rfl | hr2
      · simp [hd]
      · obtain ⟨c, hc, hrc⟩ := (buildFilteredRowsList_mem users w cs r).1 hr2
        exact ih c hc r hrc
    · rw [if_neg hd] at hr
      rcases List.mem_cons.1 hr with rfl | hr2
      · simp [hd]
      · obtain ⟨c, hc, hrc⟩ := (buildFilteredRowsList_mem users w cs r).1 hr2
        exact ih c hc r hrc

/-- C10: in every row produced by build_rows or by the windowed
build_filtered_rows, issue rows carry state opened (Issue defines no state
attribute and the fetch layer never requests one, so the getattr default
always applies) and non-issue rows carry state None; a row list in which no
state is closed yields a done count of zero on every day, and therefore the
done series of the cumulative flow over the issue rows of build_rows is
identically zero. -/
theorem issue_state_opened_and_done_zero :
    (∀ (users : List String) (t : Workitem), ∀ r ∈ buildRows users t,
        (r.typ = some "issue" → r.state = some "opened") ∧
        (r.typ ≠ some "issue" → r.state = none)) ∧
    (∀ (users : List String) (w : Win) (t : Workitem), ∀ r ∈ buildFilteredRows users w t,
        (r.typ = some "issue" → r.state = some "opened") ∧
        (r.typ ≠ some "issue" → r.state = none)) ∧
    (∀ (rows : List Row) (day : ℤ), (∀ r ∈ rows, r.state ≠ some "closed") →
        (cfdDay rows day).done = 0) ∧
    (∀ (users : List String) (t : Workitem) (startD endD : ℤ),
      ∀ p ∈ calculate_cfd_stats_date_range
          ((buildRows users t).filter (fun r => r.typ == some "issue")) startD endD,
        p.2.done = 0) := by
  have hdone : ∀ (rows : List Row) (day : ℤ), (∀ r ∈ rows, r.state ≠ some "closed") →
      (cfdDay rows day).done = 0 := by
    intro rows day h
    have hspec := (cfdDayCounts_spec day rows).2.2.1
    have hd : (cfdDay rows day).done = (cfdDayCounts day rows).2.2 := rfl
    rw [hd, hspec]
    rw [List.countP_eq_zero]
    intro r hr
    simp [h r hr]
  refine ⟨buildRows_state, buildFilteredRows_state, hdone, ?_⟩
  intro users t startD endD p hp
  obtain ⟨day, counts⟩ := p
  rw [cfd_mem_eq _ (dayRange startD endD) day counts hp]
  apply hdone
  intro r hr
  have hmem := List.mem_of_mem_filter hr
  have hstate := buildRows_state users t r hmem
  by_cases hty : r.typ = some "issue"
  · rw [hstate.1 hty]; simp
  · rw [hstate.2 hty]; simp

/-- Issue row with state opened for the C10 witness. -/
def exRowC10 : Row :=
  { typ := some "issue", titel := "A", iid := some 1, parentIID := none, hours := 1,
    estimate := 0, createdAt := some (some 0), state := some "opened", shares := [] }

/-- Witness for C10: the done count over a one-row list whose state is
opened is zero. -/
theorem issue_state_opened_and_done_zero_app : (cfdDay [exRowC10] 0).done = 0 :=
  issue_state_opened_and_done_zero.2.2.1 [exRowC10] 0
    (by
      intro r hr
      rw [List.mem_singleton] at hr
      subst hr
      simp [exRowC10])

/-- C6 amended: build_filtered_rows rounds each issue row to 2 decimals
when the row is built, and the epic row total is then computed from these
already rounded row values and rounded again, not from the full precision
windowed hours: for an epic whose children are issues the emitted epic
hours equal round2 of the sum of the round2-rounded child hours. -/
theorem epic_windowed_total_from_rounded_rows (users : List String) (w : Win)
    (d : WData) (cds : List WData)
    (hd : d.tag = some "epic")
    (hcs : ∀ c ∈ cds, c.tag = some "issue" ∧ c.parent = some d.id) :
    ((buildFilteredRows users w (Workitem.mk d (cds.map (fun c => Workitem.mk c [])))).map
        Row.hours).head? =
      some (round2 ((cds.map (fun c => round2 (filterIssueHours w c.userTimeMap).1)).sum)) := by
  have hne : ¬d.tag = some "issue" := by rw [hd]; simp
  have key : ∀ (l : List WData), (∀ c ∈ l, c.tag = some "issue" ∧ c.parent = some d.id) →
      (buildFilteredRowsList users w (l.map (fun c => Workitem.mk c []))).map Row.hours =
        l.map (fun c => round2 (filterIssueHours w c.userTimeMap).1) ∧
      ∀ r ∈ buildFilteredRowsList users w (l.map (fun c => Workitem.mk c [])),
        r.parentIID = d.id := by
    intro l
    induction l with
    | nil =>
      intro _
      constructor
      · simp [buildFilteredRowsList]
      · intro r hr
        simp [buildFilteredRowsList] at hr
    | cons c rest ih =>
      intro hl
      obtain ⟨hct, hcp⟩ := hl c (List.mem_cons_self c rest)
      obtain ⟨ih1, ih2⟩ := ih (fun x hx => hl x (List.mem_cons_of_mem _ hx))
      rw [List.map_cons, buildFilteredRowsList]
      rw [buildFilteredRows, if_pos hct]
      constructor
      · simp only [buildFilteredRowsList, List.map_append, List.map_cons, List.map_nil,
          List.nil_append, List.cons_append, ih1]
      · intro r hr
        simp only [buildFilteredRowsList, List.nil_append] at hr
        rcases List.mem_cons.1 hr with rfl | hr2
        · simp [hcp, flatParent]
        · exact ih2 r hr2
  obtain ⟨kh, kp⟩ := key cds hcs
  have hfilter : (buildFilteredRowsList users w (cds.map (fun c => Workitem.mk c []))).filter
      (fun r => r.parentIID == d.id) =
      buildFilteredRowsList users w (cds.map (fun c => Workitem.mk c [])) := by
    rw [List.filter_eq_self]
    intro r hr
    rw [kp r hr]
    exact beq_self_eq_true _
  simp only [buildFilteredRows, if_neg hne, List.map_cons, List.head?_cons]
  rw [hfilter, kh]

/-- Epic node data for the C6 example. -/
def dEpicC6 : WData :=
  { tag := some "epic", id := some 1, title := "E", parent := none,
    hoursEstimate := 0, hoursSpent := 0, userTimeMap := [], labels := [], createdAt := none }

/-- First issue of the C6 example: one in-window entry of 0.004 hours. -/
def iAC6 : WData :=
  { tag := some "issue", id := some 2, title := "A", parent := some (some 1),
    hoursEstimate := 0, hoursSpent := 0,
    userTimeMap := [("U", [{ zeit := 1 / 250, datum := some 5 }])],
    labels := [], createdAt := none }

/-- Second issue of the C6 example: one in-window entry of 0.004 hours. -/
def iBC6 : WData :=
  { tag := some "issue", id := some 3, title := "B", parent := some (some 1),
    hoursEstimate := 0, hoursSpent := 0,
    userTimeMap := [("U", [{ zeit := 1 / 250, datum := some 6 }])],
    labels := [], createdAt := none }

/-- The C6 example tree: an epic with two issue children. -/
def exEpicC6 : Workitem := .mk dEpicC6 [.mk iAC6 [], .mk iBC6 []]

/-- C6 counterexample: on exEpicC6 with windowed hours 0.004 and 0.004 the
emitted epic total is 0 (each child row is first rounded to 0.0 and the sum
of the rounded values is rounded again), while accumulating at full
precision and rounding only at output, as the claim demands, gives
round2 of 0.008, that is 0.01. -/
theorem epic_windowed_rounding_counterexample :
    ((buildFilteredRows [] (Win.lookback (some 0)) exEpicC6).map Row.hours).head? ≠
      some (specEpicWindowedHours (Win.lookback (some 0)) exEpicC6) := by
  have hlhs : ((buildFilteredRows [] (Win.lookback (some 0)) exEpicC6).map Row.hours).head? =
      some 0 := by
    simp [buildFilteredRows, buildFilteredRowsList, exEpicC6, dEpicC6, iAC6, iBC6,
      filterIssueHours, tryPhase, userWindowTotal, inWin, flatParent]
    norm_num [round2, roundHalfEven]
  have hrhs : specEpicWindowedHours (Win.lookback (some 0)) exEpicC6 = 1 / 100 := by
    simp [specEpicWindowedHours, exEpicC6, dEpicC6, iAC6, iBC6, Workitem.children,
      Workitem.data, filterIssueHours, tryPhase, userWindowTotal, inWin]
    norm_num [round2, roundHalfEven]
  rw [hlhs, hrhs]
  norm_num

/-- Witness for the amended C6 at the concrete two-issue epic. -/
theorem epic_windowed_total_from_rounded_rows_app :
    ((buildFilteredRows [] (Win.lookback (some 0))
        (Workitem.mk dEpicC6 ([iAC6, iBC6].map (fun c => Workitem.mk c [])))).map
        Row.hours).head? =
      some (round2 (([iAC6, iBC6].map
        (fun c => round2 (filterIssueHours (Win.lookback (some 0)) c.userTimeMap).1)).sum)) :=
  epic_windowed_total_from_rounded_rows [] (Win.lookback (some 0)) dEpicC6 [iAC6, iBC6] rfl
    (by
      intro c hc
      rcases List.mem_cons.1 hc with rfl | hc2
      · exact ⟨rfl, rfl⟩
      · rcases List.mem_cons.1 hc2 with rfl | hc3
        · exact ⟨rfl, rfl⟩
        · exact absurd hc3 (List.not_mem_nil _))

/-- Modelled from the spec: Epic.py is imported by the sources but its body
is not among them. The spec gives Epic no fields beyond Workitem and the
type tag "epic", so an Epic object is embedded as a Workitem node whose tag
is this value; only that tag value is consulted by the dispatching code. -/
def epicTag : Option String := some "epic"
